import Mathlib

/-!
Shallow embedding of `src/src/lib.rs` (crate `stats`): descriptive
statistics over a slice of `f64` values.

Finite `f64` values are modelled as exact rationals (every finite double
is a rational number); results that pass through `sqrt` live in `ℝ`.
Rust's `Option<f64>` is modelled by `Option`.  NaN is excluded from this
idealised numeric model; a second model (`F`, further below) adds a NaN
value and an `Except`-based sort in order to capture the panicking
comparator `a.partial_cmp(b).unwrap()` used by `median`.
-/

namespace Stats

/-- Embedding of `mean` from `lib.rs`: `count = nums.len()`,
`sum = nums.iter().sum()`, empty input gives `Some(0.0)`, otherwise
`Some(sum / count)`. -/
def mean (nums : List ℚ) : Option ℚ :=
  let count : ℚ := nums.length
  let sum : ℚ := nums.sum
  if nums.isEmpty then some 0 else some (sum / count)

/-- Embedding of `stddev` from `lib.rs`: match on `(mean nums, nums.len())`
with guard `count > 0`; the variance is the sum of squared differences
from the mean divided by the count, and the result is its square root. -/
noncomputable def stddev (nums : List ℚ) : Option ℝ :=
  match mean nums, nums.length with
  | some nums_mean, count =>
    if count > 0 then
      let variance : ℚ :=
        (nums.map (fun value =>
          let difference := nums_mean - value
          difference ^ 2)).sum / count
      some (Real.sqrt (variance : ℝ))
    else none
  | none, _ => none

/-- The tail of `median` from `lib.rs`, operating on the sorted copy:
return the element at index `(s - 1) / 2` when the list is non-empty and
`None` otherwise. -/
def medianSorted (ns : List ℚ) : Option ℚ :=
  if h : ns ≠ [] then
    some (ns.get ⟨(ns.length - 1) / 2,
      Nat.lt_of_le_of_lt (Nat.div_le_self _ _)
        (Nat.sub_lt (List.length_pos.mpr h) Nat.one_pos)⟩)
  else none

/-- Embedding of `median` from `lib.rs`: sort a copy of the input
ascending, then pick the middle element. -/
def median (nums : List ℚ) : Option ℚ :=
  medianSorted (List.insertionSort (· ≤ ·) nums)

/-- Embedding of `l2` from `lib.rs`: empty input gives `Some(0.0)`,
otherwise the loop accumulates `sum += x.powf(2.0)` over the elements and
the result is `Some(sum.sqrt())`. -/
noncomputable def l2 (nums : List ℚ) : Option ℝ :=
  if nums.isEmpty then some 0
  else
    let sum : ℚ := nums.foldl (fun sum numbers => sum + numbers ^ 2) 0
    some (Real.sqrt (sum : ℝ))

/-- An `f64` value in the refined model for the NaN question: either NaN
or a finite numeric value. -/
inductive F where
  | nan : F
  | num : ℚ → F
deriving DecidableEq

/-- Embedding of `f64::partial_cmp`: `None` whenever either side is NaN,
otherwise the numeric ordering. -/
def partialCmp : F → F → Option Ordering
  | F.num x, F.num y =>
    if x < y then some Ordering.lt
    else if x = y then some Ordering.eq
    else some Ordering.gt
  | _, _ => none

/-- The comparator closure `|a, b| a.partial_cmp(b).unwrap()` from
`median`: unwrapping `None` is a panic, modelled as `Except.error ()`. -/
def cmpUnwrap (a b : F) : Except Unit Ordering :=
  match partialCmp a b with
  | some o => Except.ok o
  | none => Except.error ()

/-- One insertion step of a comparison sort whose comparator may panic;
a panic in the comparator propagates. -/
def insertBy (a : F) : List F → Except Unit (List F)
  | [] => Except.ok [a]
  | b :: l =>
    match cmpUnwrap a b with
    | Except.error e => Except.error e
    | Except.ok o =>
      if o = Ordering.gt then
        (insertBy a l).map (fun l' => b :: l')
      else
        Except.ok (a :: b :: l)

/-- Model of `nums.sort_by(|a, b| a.partial_cmp(b).unwrap())`: a
comparison sort in the `Except` monad, panicking exactly when the
comparator is invoked on an unordered (NaN) pair. -/
def sortBy : List F → Except Unit (List F)
  | [] => Except.ok []
  | a :: l =>
    match sortBy l with
    | Except.error e => Except.error e
    | Except.ok l' => insertBy a l'

/-- The tail of `median` in the refined model, on the sorted copy. -/
def medianSortedF (ns : List F) : Option F :=
  if h : ns ≠ [] then
    some (ns.get ⟨(ns.length - 1) / 2,
      Nat.lt_of_le_of_lt (Nat.div_le_self _ _)
        (Nat.sub_lt (List.length_pos.mpr h) Nat.one_pos)⟩)
  else none

/-- `median` in the refined model: the `sort_by` call may panic, and the
panic propagates out of the function. -/
def medianF (nums : List F) : Except Unit (Option F) :=
  match sortBy nums with
  | Except.error e => Except.error e
  | Except.ok ns => Except.ok (medianSortedF ns)

/-- The accumulating loop of `l2` computes the sum of the squares. -/
theorem foldl_sq_eq (l : List ℚ) (s : ℚ) :
    l.foldl (fun a x => a + x ^ 2) s = s + (l.map (fun x => x ^ 2)).sum := by
  induction l generalizing s with
  | nil => simp
  | cons x xs ih => simp [ih, add_assoc]

/-- On the empty input `mean` evaluates to a present `0`. -/
theorem mean_nil : mean [] = some 0 := rfl

/-- On a non-empty input `mean` evaluates to the sum over the count. -/
theorem mean_eq (l : List ℚ) (hl : l ≠ []) :
    mean l = some (l.sum / l.length) := by
  simp [mean, List.isEmpty_iff, hl]

/-- `mean` always returns a present value. -/
theorem mean_isSome (l : List ℚ) : (mean l).isSome := by
  rcases eq_or_ne l [] with rfl | hl
  · rw [mean_nil]; rfl
  · rw [mean_eq l hl]; rfl

/-- On the empty input `l2` evaluates to a present `0`. -/
theorem l2_nil : l2 [] = some 0 := by
  simp [l2]

/-- On a non-empty input `l2` evaluates to the square root of the sum of
the squares of the elements. -/
theorem l2_eq (l : List ℚ) (hl : l ≠ []) :
    l2 l = some (Real.sqrt (((l.map (fun x => x ^ 2)).sum : ℚ) : ℝ)) := by
  simp [l2, List.isEmpty_iff, hl, foldl_sq_eq]

/-- `l2` always returns a present value. -/
theorem l2_isSome (l : List ℚ) : (l2 l).isSome := by
  rcases eq_or_ne l [] with rfl | hl
  · rw [l2_nil]; rfl
  · rw [l2_eq l hl]; rfl

/-- On the empty input `stddev` evaluates to `none`. -/
theorem stddev_nil : stddev [] = none := by
  simp [stddev, mean_nil]

/-- On a non-empty input `stddev` evaluates to the square root of the sum
of the squared deviations from the mean, divided by the count. -/
theorem stddev_eq (l : List ℚ) (hl : l ≠ []) :
    stddev l = some (Real.sqrt
      ((((l.map (fun value => (l.sum / l.length - value) ^ 2)).sum
          / l.length : ℚ) : ℝ))) := by
  have hm : mean l = some (l.sum / l.length) := mean_eq l hl
  have hpos : 0 < l.length := List.length_pos.mpr hl
  simp only [stddev, hm]
  rw [if_pos hpos]

/-- C1: `mean` returns the present value `0.0` on the empty input, and on
every non-empty input the present value equal to the sum of the elements
divided by the element count. -/
theorem c1_mean_spec :
    mean [] = some 0 ∧
      ∀ l : List ℚ, l ≠ [] → mean l = some (l.sum / l.length) := by
  refine ⟨rfl, fun l hl => ?_⟩
  simp [mean, List.isEmpty_iff, hl]

/-- Witness for C1 at the concrete input `[1.0, 2.0, 3.0]`. -/
theorem c1_mean_spec_witness :
    mean [(1 : ℚ), 2, 3] = some 2 := by
  have h := c1_mean_spec.2 [1, 2, 3] (by decide)
  rw [h]
  norm_num

/-- C2: `stddev` returns absent on the empty input; on every non-empty
input it returns the present square root of the mean of the squared
deviations from the mean (dividing by N), where both means are the ones
computed by the `mean` function. -/
theorem c2_stddev_spec :
    stddev [] = none ∧
      ∀ l : List ℚ, l ≠ [] →
        ∃ m v : ℚ, mean l = some m ∧
          mean (l.map (fun value => (m - value) ^ 2)) = some v ∧
          stddev l = some (Real.sqrt (v : ℝ)) := by
  refine ⟨stddev_nil, fun l hl => ?_⟩
  refine ⟨l.sum / l.length,
    (l.map (fun value => (l.sum / l.length - value) ^ 2)).sum / l.length,
    mean_eq l hl, ?_, ?_⟩
  · have hmap : l.map (fun value => (l.sum / l.length - value) ^ 2) ≠ [] := by
      simp [hl]
    rw [mean_eq _ hmap, List.length_map]
  · exact stddev_eq l hl

/-- Witness for C2 at the concrete input `[1.0, -2.0]`. -/
theorem c2_stddev_spec_witness :
    ∃ m v : ℚ, mean [(1 : ℚ), -2] = some m ∧
      mean ([(1 : ℚ), -2].map (fun value => (m - value) ^ 2)) = some v ∧
      stddev [(1 : ℚ), -2] = some (Real.sqrt (v : ℝ)) :=
  c2_stddev_spec.2 [1, -2] (by decide)

/-- C4: `l2` returns the present value `0.0` on the empty input, and on
every non-empty input the present square root of the sum of the squares
of all elements. -/
theorem c4_l2_spec :
    l2 [] = some 0 ∧
      ∀ l : List ℚ, l ≠ [] →
        l2 l = some (Real.sqrt (((l.map (fun x => x ^ 2)).sum : ℚ) : ℝ)) :=
  ⟨l2_nil, fun l hl => l2_eq l hl⟩

/-- Witness for C4 at the concrete input `[-3.0, 4.0]`, whose norm is 5. -/
theorem c4_l2_spec_witness : l2 [(-3 : ℚ), 4] = some 5 := by
  have h := c4_l2_spec.2 [(-3 : ℚ), 4] (by decide)
  have e : ((([(-3 : ℚ), 4].map (fun x => x ^ 2)).sum : ℚ) : ℝ) = 5 ^ 2 := by
    norm_num
  rw [h, e, Real.sqrt_sq (by norm_num : (0 : ℝ) ≤ 5)]

/-- C6: on every single-element input, `stddev` returns the present value
`0.0`. -/
theorem c6_stddev_single (x : ℚ) : stddev [x] = some 0 := by
  rw [stddev_eq [x] (by simp)]
  simp

/-- C7: on every single-element input `[x]`, `l2` returns the present
absolute value of `x`. -/
theorem c7_l2_single (x : ℚ) : l2 [x] = some |(x : ℝ)| := by
  rw [l2_eq [x] (by simp)]
  norm_num
  exact Real.sqrt_sq_eq_abs _

/-- Witness for C6 at the concrete input `[7.0]`. -/
theorem c6_stddev_single_witness : stddev [(7 : ℚ)] = some 0 :=
  c6_stddev_single 7

/-- Witness for C7 at the concrete input `[-3.0]`. -/
theorem c7_l2_single_witness : l2 [(-3 : ℚ)] = some 3 := by
  have h := c7_l2_single (-3)
  rw [h]
  norm_num

/-- C8: on every non-empty input `stddev` returns a present value that is
nonnegative, and on every input `l2` returns a present value that is
nonnegative. -/
theorem c8_nonneg :
    (∀ l : List ℚ, l ≠ [] → ∃ r : ℝ, stddev l = some r ∧ 0 ≤ r) ∧
      ∀ l : List ℚ, ∃ r : ℝ, l2 l = some r ∧ 0 ≤ r := by
  constructor
  · intro l hl
    exact ⟨_, stddev_eq l hl, Real.sqrt_nonneg _⟩
  · intro l
    rcases eq_or_ne l [] with rfl | hl
    · exact ⟨0, l2_nil, le_refl 0⟩
    · exact ⟨_, l2_eq l hl, Real.sqrt_nonneg _⟩

/-- Witness for C8 at the concrete inputs `[1.0, -2.0]` and `[]`. -/
theorem c8_nonneg_witness :
    (∃ r : ℝ, stddev [(1 : ℚ), -2] = some r ∧ 0 ≤ r) ∧
      ∃ r : ℝ, l2 ([] : List ℚ) = some r ∧ 0 ≤ r :=
  ⟨c8_nonneg.1 [1, -2] (by decide), c8_nonneg.2 []⟩

/-- Sorting ascending is determined by the multiset of elements: two
lists that are permutations of each other have the same sorted copy. -/
theorem insertionSort_eq_of_perm {l l' : List ℚ} (hp : l.Perm l') :
    List.insertionSort (· ≤ ·) l = List.insertionSort (· ≤ ·) l' :=
  List.eq_of_perm_of_sorted
    (((List.perm_insertionSort _ l).trans hp).trans
      (List.perm_insertionSort _ l').symm)
    (List.sorted_insertionSort _ l) (List.sorted_insertionSort _ l')

/-- C3: the median of the empty input is absent; on every non-empty
input, `median` returns the element at index `(s - 1) / 2` (integer
floor division, `s` the input length) of any ascending sorted
rearrangement of the input — for even `s` the lower of the two middle
elements, not their average. -/
theorem c3_median_spec :
    median ([] : List ℚ) = none ∧
      ∀ (l sl : List ℚ), l ≠ [] → l.Perm sl → sl.Sorted (· ≤ ·) →
        median l = sl[(l.length - 1) / 2]? := by
  refine ⟨rfl, fun l sl hl hp hs => ?_⟩
  have hsl : List.insertionSort (· ≤ ·) l = sl :=
    List.eq_of_perm_of_sorted ((List.perm_insertionSort _ l).trans hp)
      (List.sorted_insertionSort _ l) hs
  have hlen : sl.length = l.length := hp.symm.length_eq
  have hne : sl ≠ [] := fun h0 => hl (by rw [h0] at hp; exact hp.eq_nil)
  have hidx : (l.length - 1) / 2 = (sl.length - 1) / 2 := by rw [hlen]
  rw [hidx]
  have hb : (sl.length - 1) / 2 < sl.length :=
    Nat.lt_of_le_of_lt (Nat.div_le_self _ _)
      (Nat.sub_lt (List.length_pos.mpr hne) Nat.one_pos)
  rw [List.getElem?_eq_getElem hb]
  unfold median
  rw [hsl]
  unfold medianSorted
  rw [dif_pos hne]
  simp [List.get_eq_getElem]

/-- Witness for C3 at the even-length input `[0.0, 4.0, -1.0, 1.0]`,
whose ascending rearrangement is `[-1.0, 0.0, 1.0, 4.0]`. -/
theorem c3_median_spec_witness :
    median [(0 : ℚ), 4, -1, 1] =
      [(-1 : ℚ), 0, 1, 4][([(0 : ℚ), 4, -1, 1].length - 1) / 2]? :=
  c3_median_spec.2 [0, 4, -1, 1] [-1, 0, 1, 4]
    (by decide) (by decide) (by decide)

/-- C9: `mean`, `stddev`, `median` and `l2` are order-independent: they
return identical results on any two inputs that are permutations of each
other. -/
theorem c9_perm_invariant (l l' : List ℚ) (hp : l.Perm l') :
    mean l = mean l' ∧ stddev l = stddev l' ∧
      median l = median l' ∧ l2 l = l2 l' := by
  have hsum : l.sum = l'.sum := hp.sum_eq
  have hlen : l.length = l'.length := hp.length_eq
  rcases eq_or_ne l [] with rfl | hl
  · obtain rfl : l' = [] := hp.symm.eq_nil
    exact ⟨rfl, rfl, rfl, rfl⟩
  have hl' : l' ≠ [] := fun h0 => hl (by rw [h0] at hp; exact hp.eq_nil)
  refine ⟨?_, ?_, ?_, ?_⟩
  · rw [mean_eq l hl, mean_eq l' hl', hsum, hlen]
  · rw [stddev_eq l hl, stddev_eq l' hl', hsum, hlen]
    have hms : (l.map (fun value => (l'.sum / l'.length - value) ^ 2)).sum
        = (l'.map (fun value => (l'.sum / l'.length - value) ^ 2)).sum :=
      (hp.map _).sum_eq
    rw [hms]
  · unfold median
    rw [insertionSort_eq_of_perm hp]
  · rw [l2_eq l hl, l2_eq l' hl']
    have hms : (l.map (fun x => x ^ 2)).sum = (l'.map (fun x => x ^ 2)).sum :=
      (hp.map _).sum_eq
    rw [hms]

/-- Witness for C9 at the concrete permuted pair `[1.0, 2.0]` and
`[2.0, 1.0]`. -/
theorem c9_perm_invariant_witness :
    mean [(1 : ℚ), 2] = mean [(2 : ℚ), 1] ∧
      stddev [(1 : ℚ), 2] = stddev [(2 : ℚ), 1] ∧
      median [(1 : ℚ), 2] = median [(2 : ℚ), 1] ∧
      l2 [(1 : ℚ), 2] = l2 [(2 : ℚ), 1] :=
  c9_perm_invariant [1, 2] [2, 1] (by decide)

/-- C10: `mean` and `l2` return a present value on every input; their
absent case is unreachable. -/
theorem c10_mean_l2_always_some (l : List ℚ) :
    (mean l).isSome ∧ (l2 l).isSome :=
  ⟨mean_isSome l, l2_isSome l⟩

/-- Witness for C10 at the concrete input `[5.0]`. -/
theorem c10_mean_l2_always_some_witness :
    (mean [(5 : ℚ)]).isSome ∧ (l2 [(5 : ℚ)]).isSome :=
  c10_mean_l2_always_some [5]

/-- The comparator succeeds with `lt` on an ordered numeric pair. -/
theorem cmpUnwrap_num_lt {x y : ℚ} (h : x < y) :
    cmpUnwrap (F.num x) (F.num y) = Except.ok Ordering.lt := by
  simp [cmpUnwrap, partialCmp, h]

/-- The comparator succeeds with `eq` on equal numeric values. -/
theorem cmpUnwrap_num_eq (x : ℚ) :
    cmpUnwrap (F.num x) (F.num x) = Except.ok Ordering.eq := by
  simp [cmpUnwrap, partialCmp, lt_irrefl]

/-- The comparator succeeds with `gt` on a reverse-ordered numeric pair. -/
theorem cmpUnwrap_num_gt {x y : ℚ} (h : y < x) :
    cmpUnwrap (F.num x) (F.num y) = Except.ok Ordering.gt := by
  simp [cmpUnwrap, partialCmp, lt_asymm h, ne_of_gt h]

/-- On NaN-free input the panicking insertion step never panics and
agrees with the ordered insertion of the ideal model. -/
theorem insertBy_num (a : ℚ) (l : List ℚ) :
    insertBy (F.num a) (l.map F.num) =
      Except.ok ((List.orderedInsert (· ≤ ·) a l).map F.num) := by
  induction l with
  | nil => rfl
  | cons b l ih =>
    rcases lt_trichotomy a b with h | h | h
    · rw [List.map_cons, insertBy, cmpUnwrap_num_lt h]
      simp [List.orderedInsert, le_of_lt h]
    · subst h
      rw [List.map_cons, insertBy, cmpUnwrap_num_eq]
      simp [List.orderedInsert]
    · rw [List.map_cons, insertBy, cmpUnwrap_num_gt h, ih]
      simp [List.orderedInsert, not_le.mpr h, Except.map]

/-- On NaN-free input the panicking sort never panics and agrees with
the insertion sort of the ideal model. -/
theorem sortBy_num (l : List ℚ) :
    sortBy (l.map F.num) =
      Except.ok ((List.insertionSort (· ≤ ·) l).map F.num) := by
  induction l with
  | nil => rfl
  | cons a l ih =>
    rw [List.map_cons, sortBy, ih, List.insertionSort]
    exact insertBy_num a _

/-- The post-sort tail of `median` commutes with the embedding of
NaN-free values. -/
theorem medianSortedF_map (ns : List ℚ) :
    medianSortedF (ns.map F.num) = (medianSorted ns).map F.num := by
  rcases eq_or_ne ns [] with rfl | h
  · rfl
  · have h2 : ns.map F.num ≠ [] := by simp [h]
    rw [medianSortedF, medianSorted, dif_pos h2, dif_pos h]
    simp [List.get_eq_getElem]

/-- C5 (amended): on every NaN-free input, `median` in the refined model
returns without panicking, with the value of the ideal model; the claim
as stated fails because the sort comparator panics on NaN (see the
counterexample). -/
theorem c5_median_nan_free_no_panic (l : List ℚ) :
    medianF (l.map F.num) = Except.ok ((median l).map F.num) := by
  rw [medianF, sortBy_num]
  rw [median]
  exact congrArg Except.ok (medianSortedF_map _)

/-- Witness for the amended C5 at the concrete NaN-free input
`[2.0, 1.0]`. -/
theorem c5_median_nan_free_no_panic_witness :
    medianF ([(2 : ℚ), 1].map F.num) =
      Except.ok ((median [(2 : ℚ), 1]).map F.num) :=
  c5_median_nan_free_no_panic [2, 1]

/-- C5 counterexample: on the input `[NaN, 1.0]` the comparator inside
`median`'s sort unwraps `None` and panics. -/
theorem c5_median_panics_on_nan :
    medianF [F.nan, F.num 1] = Except.error () := rfl

end Stats
